import Mathlib

/-!
Verification of the Allezon analytics pipeline (Rust sources) against its
natural-language specification.

This file is a shallow embedding of the parts of the code that the checked
claims are about:

* the data model (`src/api_server/src/user_tag.rs`,
  `src/database/src/aggregates.rs`, `src/api_server/src/time_range.rs`),
* the record-store gateway (`src/src/db_client.rs`,
  `src/database/src/client.rs`, `src/database/src/retrying_client.rs`),
* the aggregation engine's flush step (`src/consumer/src/aggregates.rs`),
* the event-bus producers (`src/event_queue/src/producer.rs`,
  `src/tag_queue/src/producer.rs`),
* the aggregates query-string parsing (`src/database/src/aggregates.rs`,
  `src/api_server/src/aggregates.rs`),
* the time-range string parsing (`src/api_server/src/time_range.rs`,
  `src/api_server/src/user_profiles.rs`).

Conventions of the embedding:

* `chrono::DateTime<Utc>` values are modelled as `Int` milliseconds since the
  Unix epoch (the precision the system parses and stores);
  `DateTime::timestamp()` is `t / 1000` and Lean's `Int` division is floor
  division, which agrees with chrono on the values at hand.
* Rust `i64`/`u32`/`usize` counters are modelled as `Int`/`Nat`; the claims
  under check do not concern integer overflow, and none of the theorems below
  depend on wrap-around behaviour.
* Aerospike and serde are external libraries: a `get` result is a value of
  `ReadResult`, a `put` outcome is an oracle function of the written request
  (`Attempt.putRes`), and JSON (de)serialization of tag lists is an explicit
  function parameter (`dec`/`enc`).  Everything the repository's own code does
  with those results is embedded faithfully.
-/

deriving instance DecidableEq for Except

namespace Allezon

/-- Action enum of `src/api_server/src/user_tag.rs` (serde names VIEW, BUY). -/
inductive Action
| view
| buy
deriving DecidableEq, Repr

/-- Device enum of `src/api_server/src/user_tag.rs`. -/
inductive Device
| pc
| mobile
| tv
deriving DecidableEq, Repr

/-- Modelled from the spec: the database crate's `user_tag.rs` is not in the
source tree (only `src/api_server/src/user_tag.rs` is); per the spec the
profile record's bins are named `view` and `buy` and the aggregate set is the
lowercase action name, so `Action::db_name` returns the lowercase name. -/
def Action.db_name : Action → String
| .view => "view"
| .buy => "buy"

/-- Display impl of `Action` (`src/api_server/src/user_tag.rs`). -/
def Action.display : Action → String
| .view => "VIEW"
| .buy => "BUY"

/-- ProductInfo of `src/api_server/src/user_tag.rs`. -/
structure ProductInfo where
  product_id : Int
  brand_id : String
  category_id : String
  price : Int
deriving DecidableEq, Repr

/-- UserTag of `src/api_server/src/user_tag.rs`; `time` is epoch milliseconds. -/
structure UserTag where
  time : Int
  cookie : String
  country : String
  device : Device
  action : Action
  origin : String
  product_info : ProductInfo
deriving DecidableEq, Repr

/-- Aggregate enum of `src/database/src/aggregates.rs`. -/
inductive Aggregate
| count
| sumPrice
deriving DecidableEq, Repr

/-- Bin names of the two aggregate bins (`Aggregate::db_name`). -/
def Aggregate.db_name : Aggregate → String
| .count => "count"
| .sumPrice => "sum_price"

/-! ## Aerospike record model

`aerospike::Record` holds a bin map and a generation counter; `Value` is the
bin value type.  Reads return either a record, a `KeyNotFoundError`, or some
other server error; writes return ok, a `GenerationError`, or another error.
-/

/-- Model of `aerospike::Value` restricted to the variants the code stores. -/
inductive DbValue
| int (i : Int)
| str (s : String)
| other
deriving DecidableEq, Repr

/-- Model of `aerospike::Record`: bins plus the generation counter. -/
structure DbRecord where
  bins : List (String × DbValue)
  generation : Nat
deriving DecidableEq, Repr

/-- Bin lookup, modelling `record.bins.get(name)`. -/
def DbRecord.getBin (record : DbRecord) (name : String) : Option DbValue :=
  (record.bins.find? (fun bin => bin.1 = name)).map (fun bin => bin.2)

/-- Error side of an Aerospike `get`. -/
inductive DbError
| keyNotFound
| serverError (msg : String)
deriving DecidableEq, Repr

/-- Result of an Aerospike `get` call. -/
abbrev ReadResult := Except DbError DbRecord

/-- Outcome of an Aerospike `put` call. -/
inductive PutResult
| ok
| generationError
| otherError (msg : String)
deriving DecidableEq, Repr

/-- Errors the gateway surfaces to its callers (`anyhow` errors in the
source, kept structured here so that theorems can talk about their origin). -/
inductive UpdateError
| fetchFailed
| parseFailed
| putFailed (e : PutResult)
deriving DecidableEq, Repr

/-- WritePolicy model: `WritePolicy::new(generation, expiration)` together
with `GenerationPolicy::ExpectGenEqual`; `expiration = none` is
`Expiration::Never`, `some n` is `Expiration::Seconds(n)`. -/
structure WritePolicy where
  generation : Nat
  expiration : Option Nat
deriving DecidableEq, Repr

/-- A prepared `put`: the policy plus the bins to be written. -/
structure PutRequest where
  policy : WritePolicy
  bins : List (String × DbValue)
deriving DecidableEq, Repr

/-- One iteration's interaction with the store, used by the CAS-loop models:
what the `get` returned and what the `put` of a given request returns. -/
structure Attempt where
  readRes : ReadResult
  putRes : PutRequest → PutResult

/-- 24 hours, `DbClient::SECONDS_IN_DAY` (`src/src/db_client.rs`). -/
def SECONDS_IN_DAY : Nat := 60 * 60 * 24

/-- 200, `DbClient::PROFILE_TAGS_LIMIT` (`src/src/db_client.rs`,
`src/database/src/client.rs`). -/
def PROFILE_TAGS_LIMIT : Nat := 200

/-! ## Store-side semantics of a compare-and-set `put`

Used to state what a successful update step does to the stored record.
-/

/-- Read of a possibly-absent record, as the client sees it. -/
def readRecord : Option DbRecord → ReadResult
| some record => .ok record
| none => .error .keyNotFound

/-- Generation an `ExpectGenEqual` write is checked against (0 when the
record does not exist). -/
def recordGeneration : Option DbRecord → Nat
| some record => record.generation
| none => 0

/-- Bins of a possibly-absent record. -/
def recordBins : Option DbRecord → List (String × DbValue)
| some record => record.bins
| none => []

/-- An Aerospike `put` updates the written bins and keeps the others. -/
def mergeBins (old new : List (String × DbValue)) : List (String × DbValue) :=
  old.filter (fun bin => new.all (fun nb => ¬ nb.1 = bin.1)) ++ new

/-- Store-side effect of a `put` under `GenerationPolicy::ExpectGenEqual`:
the write succeeds and bumps the generation iff the expected generation
matches the current one. -/
def casPut (st : Option DbRecord) (req : PutRequest) : PutResult × Option DbRecord :=
  if req.policy.generation = recordGeneration st then
    (.ok, some ⟨mergeBins (recordBins st) req.bins, recordGeneration st + 1⟩)
  else
    (.generationError, st)

/-! ## Aggregate record parsing and the aggregate update

`DbClient::parse_aggregate` and `DbClient::try_update_aggregate`
(`src/src/db_client.rs`, lines 49-55 and 223-261); the
`SimpleDbClient` versions (`src/database/src/client.rs`) differ only in using
`usize` arithmetic before casting back to `i64`.
-/

/-- `DbClient::parse_aggregate`: a bin must be present and an integer. -/
def parse_aggregate (record : DbRecord) (aggregate : Aggregate) : Except String Int :=
  match record.getBin aggregate.db_name with
  | some (.int i) => .ok i
  | some _ => .error "expected bin to be an integer"
  | none => .error "missing bin"

/-- Readout of one aggregate bin of a possibly-absent record, with the
default 0 the code starts from when the record or bin is absent. -/
def aggValue (st : Option DbRecord) (aggregate : Aggregate) : Int :=
  match st with
  | none => 0
  | some record =>
    match record.getBin aggregate.db_name with
    | some (.int i) => i
    | _ => 0

/-- True when a present record has both integer aggregate bins (the shape
every record written by `try_update_aggregate` has). -/
def aggStateWF : Option DbRecord → Bool
| none => true
| some record =>
  (match record.getBin Aggregate.count.db_name with
    | some (.int _) => true
    | _ => false)
  && (match record.getBin Aggregate.sumPrice.db_name with
    | some (.int _) => true
    | _ => false)

/-- The `put` request the aggregate update writes: `old + delta` on both
bins, `ExpectGenEqual(generation)`, 24-hour expiry. -/
def aggPutRequest (old_count old_sum_price : Int) (generation : Nat)
    (count sum_price : Int) : PutRequest :=
  { policy := ⟨generation, some SECONDS_IN_DAY⟩
    bins := [(Aggregate.count.db_name, .int (old_count + count)),
             (Aggregate.sumPrice.db_name, .int (old_sum_price + sum_price))] }

/-- Read-and-apply phase of `DbClient::try_update_aggregate`
(`src/src/db_client.rs` lines 223-254): read `(count, sum_price, generation)`
with `(0, 0, 0)` for an absent key, then build the `put` request for
`old + delta` on both bins with `ExpectGenEqual(generation)` and a 24-hour
expiry. -/
def DbClient.try_update_aggregate_request (readRes : ReadResult) (count sum_price : Int) :
    Except UpdateError PutRequest :=
  match readRes with
  | .ok record =>
    match parse_aggregate record .count with
    | .error _ => .error .parseFailed
    | .ok old_count =>
      match parse_aggregate record .sumPrice with
      | .error _ => .error .parseFailed
      | .ok old_sum_price =>
        .ok (aggPutRequest old_count old_sum_price record.generation count sum_price)
  | .error .keyNotFound => .ok (aggPutRequest 0 0 0 count sum_price)
  | .error (.serverError _) => .error .fetchFailed

/-- One whole read-modify-write step of `try_update_aggregate` against a
store holding `st`, with the CAS write applied to the same state that was
read (the successful, conflict-free case of the loop). -/
def DbClient.update_aggregate_step (st : Option DbRecord) (count sum_price : Int) :
    Except UpdateError (PutResult × Option DbRecord) :=
  match DbClient.try_update_aggregate_request (readRecord st) count sum_price with
  | .error e => .error e
  | .ok req => .ok (casPut st req)

/-- `DbClient::try_update_aggregate` driven by an attempt oracle: the read
result and the put outcome come from the environment; a `GenerationError`
put is reported as `Ok(false)`, success as `Ok(true)`
(`src/src/db_client.rs` lines 256-260). -/
def DbClient.try_update_aggregate (a : Attempt) (count sum_price : Int) :
    Except UpdateError Bool :=
  match DbClient.try_update_aggregate_request a.readRes count sum_price with
  | .error e => .error e
  | .ok req =>
    match a.putRes req with
    | .ok => .ok true
    | .generationError => .ok false
    | .otherError m => .error (.putFailed (.otherError m))

/-- `DbClient::update_aggregate` (`src/src/db_client.rs` lines 204-221): loop
on `try_update_aggregate` until it returns `Ok(true)` or an error.  The loop
consumes one attempt environment per iteration; `none` means the given trace
ran out while the loop was still retrying. -/
def DbClient.update_aggregate : List Attempt → Int → Int → Option (Except UpdateError Unit)
| [], _, _ => none
| a :: rest, count, sum_price =>
  match DbClient.try_update_aggregate a count sum_price with
  | .ok true => some (.ok ())
  | .ok false => DbClient.update_aggregate rest count sum_price
  | .error e => some (.error e)

/-! ## User-profile records

`DbClient::parse_user_tags` and the profile update/read operations
(`src/src/db_client.rs` lines 39-47, 84-171; `src/database/src/client.rs`
lines 68-78, 91-169).  JSON (de)serialization of tag lists is serde in the
source; here it is an explicit function parameter: `dec` models
`serde_json::from_str`, `enc` models `serde_json::to_string`.
-/

/-- `parse_user_tags`: an absent bin is an empty list; a present bin must be
a string and is deserialized. -/
def parse_user_tags (dec : String → Except String (List UserTag))
    (record : DbRecord) (action : Action) : Except String (List UserTag) :=
  match record.getBin action.db_name with
  | none => .ok []
  | some (.str tags) => dec tags
  | some _ => .error "expected the bin to be a string"

/-- Read phase shared by `DbClient::try_update_user_profile` and
`SimpleDbClient::update_user_profile`: fetch the bin of the event's action,
giving `([], 0)` when the key is absent. -/
def profile_read_tags (dec : String → Except String (List UserTag))
    (readRes : ReadResult) (action : Action) :
    Except UpdateError (List UserTag × Nat) :=
  match readRes with
  | .ok record =>
    match parse_user_tags dec record action with
    | .ok tags => .ok (tags, record.generation)
    | .error _ => .error .parseFailed
  | .error .keyNotFound => .ok ([], 0)
  | .error (.serverError _) => .error .fetchFailed

/-- Comparator of `tags.sort_unstable_by_key(|tag| Reverse(tag.time))`:
ascending in `Reverse(time)`, i.e. descending in `time`. -/
def profileDescLe (a b : UserTag) : Bool := decide (b.time ≤ a.time)

/-- Apply phase of the profile update: push the new tag, sort descending by
time, truncate to `PROFILE_TAGS_LIMIT`. -/
def updated_tags (tags : List UserTag) (tag : UserTag) : List UserTag :=
  ((tags ++ [tag]).mergeSort profileDescLe).take PROFILE_TAGS_LIMIT

/-- Write request of the profile update: the serialized new list into the
action's bin, `ExpectGenEqual(generation)`, `Expiration::Never`. -/
def profile_put_request (enc : List UserTag → String)
    (tags : List UserTag) (generation : Nat) (tag : UserTag) : PutRequest :=
  { policy := ⟨generation, none⟩
    bins := [(tag.action.db_name, .str (enc (updated_tags tags tag)))] }

/-- `DbClient::try_update_user_profile` (`src/src/db_client.rs` lines
136-171): `Ok(true)` when the CAS write succeeded, `Ok(false)` on a
`GenerationError`, an error otherwise. -/
def DbClient.try_update_user_profile (dec : String → Except String (List UserTag))
    (enc : List UserTag → String) (a : Attempt) (tag : UserTag) :
    Except UpdateError Bool :=
  match profile_read_tags dec a.readRes tag.action with
  | .error e => .error e
  | .ok (tags, generation) =>
    match a.putRes (profile_put_request enc tags generation tag) with
    | .ok => .ok true
    | .generationError => .ok false
    | .otherError m => .error (.putFailed (.otherError m))

/-- `DbClient::update_user_profile` (`src/src/db_client.rs` lines 84-92):
retry `try_update_user_profile` until `Ok(true)` or an error.  `none` means
the given trace of attempt environments ran out while still retrying. -/
def DbClient.update_user_profile (dec : String → Except String (List UserTag))
    (enc : List UserTag → String) :
    List Attempt → UserTag → Option (Except UpdateError Unit)
| [], _ => none
| a :: rest, tag =>
  match DbClient.try_update_user_profile dec enc a tag with
  | .ok true => some (.ok ())
  | .ok false => DbClient.update_user_profile dec enc rest tag
  | .error e => some (.error e)

/-- `SimpleDbClient::update_user_profile` (`src/database/src/client.rs` lines
133-169): a single read-modify-write; every `put` error, including
`GenerationError`, is surfaced to the caller via `map_err`. -/
def SimpleDbClient.update_user_profile (dec : String → Except String (List UserTag))
    (enc : List UserTag → String) (a : Attempt) (tag : UserTag) :
    Except UpdateError Unit :=
  match profile_read_tags dec a.readRes tag.action with
  | .error e => .error e
  | .ok (tags, generation) =>
    match a.putRes (profile_put_request enc tags generation tag) with
    | .ok => .ok ()
    | e => .error (.putFailed e)

/-- `SimpleDbClient::update_aggregate` (`src/database/src/client.rs` lines
215-257): a single read-modify-write; every `put` error, including
`GenerationError`, is surfaced to the caller via `map_err`. -/
def SimpleDbClient.update_aggregate (a : Attempt) (count sum_price : Int) :
    Except UpdateError Unit :=
  match DbClient.try_update_aggregate_request a.readRes count sum_price with
  | .error e => .error e
  | .ok req =>
    match a.putRes req with
    | .ok => .ok ()
    | e => .error (.putFailed e)

/-! ## Profile reads -/

/-- Modelled from the spec: the database crate's `user_profiles.rs` is not in
the source tree.  Per the spec the profile query carries a millisecond
simple time range and a limit (default 200, capped at 200); the reading code
in `src/database/src/client.rs` and `src/src/db_client.rs` uses
`query.time_range.from()`, `query.time_range.to()` and `query.limit`. -/
structure UserProfilesQuery where
  fromTime : Int
  toTime : Int
  limit : Nat
deriving DecidableEq, Repr

/-- Reply of the profile read (`user_profiles.rs`). -/
structure UserProfilesReply where
  cookie : String
  views : List UserTag
  buys : List UserTag
deriving DecidableEq, Repr

/-- `from ≤ tag.time < to` retention predicate used by both profile reads. -/
def inRange (query : UserProfilesQuery) (tag : UserTag) : Bool :=
  decide (query.fromTime ≤ tag.time) && decide (tag.time < query.toTime)

/-- `DbClient::get_user_profile` (`src/src/db_client.rs` lines 94-134):
`buys` from the `buy` bin, `views` from the `view` bin; an absent key gives
empty lists; both lists filtered to the time range and truncated to the
limit. -/
def DbClient.get_user_profile (dec : String → Except String (List UserTag))
    (readRes : ReadResult) (cookie : String) (query : UserProfilesQuery) :
    Except String UserProfilesReply := do
  let pair ← match readRes with
    | .ok record => do
      let buys ← parse_user_tags dec record .buy
      let views ← parse_user_tags dec record .view
      Except.ok (buys, views)
    | .error .keyNotFound => Except.ok ([], [])
    | .error (.serverError _) => Except.error "failed to fetch profile"
  let (buys, views) := pair
  let views := (views.filter (inRange query)).take query.limit
  let buys := (buys.filter (inRange query)).take query.limit
  .ok { cookie, views, buys }

/-- `SimpleDbClient::get_user_profile` (`src/database/src/client.rs` lines
91-131).  Faithful to the source: line 106 passes `Action::Buy` when
building `views`, so both lists are deserialized from the `buy` bin (while
the error context string on line 107 says `view` bin). -/
def SimpleDbClient.get_user_profile (dec : String → Except String (List UserTag))
    (readRes : ReadResult) (cookie : String) (query : UserProfilesQuery) :
    Except String UserProfilesReply := do
  let pair ← match readRes with
    | .ok record => do
      let buys ← parse_user_tags dec record .buy
      let views ← parse_user_tags dec record .buy
      Except.ok (buys, views)
    | .error .keyNotFound => Except.ok ([], [])
    | .error (.serverError _) => Except.error "failed to fetch profile"
  let (buys, views) := pair
  let views := (views.filter (inRange query)).take query.limit
  let buys := (buys.filter (inRange query)).take query.limit
  .ok { cookie, views, buys }

/-! ## Aggregates data model

`src/api_server/src/time_range.rs` (bucket ranges),
`src/database/src/aggregates.rs` (bucket keys, query, reply).
-/

/-- `TimeRange<true>`: a buckets range, endpoints as epoch milliseconds. -/
structure BucketsRange where
  fromTime : Int
  toTime : Int
deriving DecidableEq, Repr

/-- `BucketsRange::buckets_count` (`src/api_server/src/time_range.rs` lines
30-32): whole minutes between the endpoints. -/
def BucketsRange.buckets_count (r : BucketsRange) : Nat :=
  ((r.toTime - r.fromTime) / 60000).toNat

/-- `BucketsRange::bucket_starts` (`src/api_server/src/time_range.rs` lines
34-37): `from + idx minutes` for `idx < buckets_count`. -/
def BucketsRange.bucket_starts (r : BucketsRange) : List Int :=
  (List.range r.buckets_count).map (fun (idx : Nat) => r.fromTime + 60000 * (idx : Int))

/-- `DateTime::timestamp() / 60`: the minute number of an instant. -/
def minuteOf (time : Int) : Int := time / 1000 / 60

/-- `AggregatesBucket` (`src/database/src/aggregates.rs` lines 199-205):
minute timestamp plus the three optional dimensions. -/
structure AggregatesBucket where
  timestamp : Int
  origin : Option String
  brand_id : Option String
  category_id : Option String
deriving DecidableEq, Repr

/-- `AggregatesBucket::new` (`src/database/src/aggregates.rs` lines
207-221). -/
def AggregatesBucket.new (time : Int) (origin brand_id category_id : Option String) :
    AggregatesBucket :=
  ⟨minuteOf time, origin, brand_id, category_id⟩

/-- Display impl of `AggregatesBucket` (`src/database/src/aggregates.rs`
lines 223-234): the record user key
`<timestamp>--<origin?>--<brand_id?>--<category_id?>` with absent dimensions
rendered empty. -/
def AggregatesBucket.render (b : AggregatesBucket) : String :=
  toString b.timestamp ++ "--" ++ b.origin.getD "" ++ "--" ++ b.brand_id.getD ""
    ++ "--" ++ b.category_id.getD ""

/-- `AggregatesQuery` (`src/database/src/aggregates.rs` lines 35-43). -/
structure AggregatesQuery where
  time_range : BucketsRange
  action : Action
  origin : Option String
  brand_id : Option String
  category_id : Option String
  aggregates : List Aggregate
deriving DecidableEq, Repr

/-- `AggregatesRow` (`src/database/src/aggregates.rs` lines 117-121). -/
structure AggregatesRow where
  sum_price : Int
  count : Int
deriving DecidableEq, Repr

/-- `AggregatesReply` (`src/database/src/aggregates.rs` lines 123-127). -/
structure AggregatesReply where
  query : AggregatesQuery
  rows : List AggregatesRow
deriving DecidableEq, Repr

/-- `AggregatesQuery::make_reply` (`src/database/src/aggregates.rs` lines
107-114): reject a row list whose length is not the bucket count. -/
def AggregatesQuery.make_reply (query : AggregatesQuery) (rows : List AggregatesRow) :
    Except String AggregatesReply :=
  if rows.length = query.time_range.buckets_count then
    .ok ⟨query, rows⟩
  else
    .error "invalid rows count"

/-- Bucket key a query builds for one minute in
`DbClient::get_aggregates` (`src/src/db_client.rs` lines 177-183).
Faithful to the source: `query.origin.clone()` is passed both as the
`origin` and as the `brand_id` argument of `AggregatesBucket::new`. -/
def DbClient.queryBucket (query : AggregatesQuery) (time : Int) : AggregatesBucket :=
  AggregatesBucket.new time query.origin query.origin query.category_id

/-- Bucket key a query builds for one minute in
`SimpleDbClient::get_aggregates` (`src/database/src/client.rs` lines
175-180).  Faithful to the source: the struct literal sets
`brand_id: query.origin.clone()`. -/
def SimpleDbClient.queryBucket (query : AggregatesQuery) (time : Int) : AggregatesBucket :=
  { timestamp := minuteOf time
    origin := query.origin
    brand_id := query.origin
    category_id := query.category_id }

/-- `AggregatesFilter` (`src/consumer/src/aggregates.rs` lines 20-25): the
projection mask of one aggregation engine. -/
structure AggregatesFilter where
  origin : Bool
  brand_id : Bool
  category_id : Bool
deriving DecidableEq, Repr

/-- `AggregatesFilter::make_bucket` (`src/consumer/src/aggregates.rs` lines
44-53): the bucket key an event contributes to under a projection mask; the
minute conversion is the one `AggregatesBucket`'s Display/`new` applies on
the write path. -/
def AggregatesFilter.make_bucket (f : AggregatesFilter) (tag : UserTag) : AggregatesBucket :=
  { timestamp := minuteOf tag.time
    origin := if f.origin then some tag.origin else none
    brand_id := if f.brand_id then some tag.product_info.brand_id else none
    category_id := if f.category_id then some tag.product_info.category_id else none }

/-! ## The batched aggregate read

`DbClient::get_aggregates` and `DbClient::parse_batch_read`
(`src/src/db_client.rs` lines 57-82 and 173-202).
-/

/-- One entry of a batch-read response: the request key (carrying the bucket
it was built from) and the record, `none` when the key does not exist. -/
structure BatchRead where
  bucket : AggregatesBucket
  record : Option DbRecord
deriving DecidableEq, Repr

/-- `DbClient::parse_batch_read` (`src/src/db_client.rs` lines 57-82).  The
source recovers the minute by splitting the rendered user key
`<timestamp>--...` on `"--"` and parsing the first chunk; since the decimal
rendering of the timestamp never contains `"--"`, that recovers exactly
`bucket.timestamp`, which is what this embedding reads off directly.  A
missing record yields the zero row (`AggregatesRow::default()`). -/
def parse_batch_read (br : BatchRead) : Except String (Int × AggregatesRow) :=
  match br.record with
  | some record =>
    match parse_aggregate record .sumPrice with
    | .error e => .error e
    | .ok sum_price =>
      match parse_aggregate record .count with
      | .error e => .error e
      | .ok count => .ok (br.bucket.timestamp, ⟨sum_price, count⟩)
  | none => .ok (br.bucket.timestamp, ⟨0, 0⟩)

/-- `collect::<Result<Vec<_>>>()`: stop at the first error, else keep all. -/
def collectResults : List (Except String α) → Except String (List α)
| [] => .ok []
| x :: rest =>
  match x with
  | .error e => .error e
  | .ok v =>
    match collectResults rest with
    | .error e => .error e
    | .ok vs => .ok (v :: vs)

/-- Batch requests built by `DbClient::get_aggregates`: one query bucket per
bucket start. -/
def DbClient.batch_requests (query : AggregatesQuery) : List AggregatesBucket :=
  query.time_range.bucket_starts.map (DbClient.queryBucket query)

/-- `DbClient::get_aggregates` (`src/src/db_client.rs` lines 173-202) applied
to a batch-read response `resp` (the store's answer, in whatever order the
batch read returned it): parse every entry, sort by the embedded minute,
drop the minute and hand the rows to `make_reply`. -/
def DbClient.get_aggregates (query : AggregatesQuery) (resp : List BatchRead) :
    Except String AggregatesReply :=
  match collectResults (resp.map parse_batch_read) with
  | .error e => .error e
  | .ok rows =>
    let sorted := rows.mergeSort (fun x y => decide (x.1 ≤ y.1))
    query.make_reply (sorted.map (fun p => p.2))

/-- Row the store holds for a bucket key (zero row when absent), the
intended readout of one batch entry. -/
def rowOfStore (store : AggregatesBucket → Option DbRecord) (b : AggregatesBucket) :
    AggregatesRow :=
  match store b with
  | none => ⟨0, 0⟩
  | some record => ⟨aggValue (some record) .sumPrice, aggValue (some record) .count⟩

/-- The batch-read response in request order: for each requested bucket, the
key and the record the store holds for it. -/
def canonicalResponse (query : AggregatesQuery) (store : AggregatesBucket → Option DbRecord) :
    List BatchRead :=
  (DbClient.batch_requests query).map (fun b => ⟨b, store b⟩)

/-- The pair `parse_batch_read` produces for one response entry of a
well-formed store. -/
def parsedEntry (store : AggregatesBucket → Option DbRecord) (br : BatchRead) :
    Int × AggregatesRow :=
  (br.bucket.timestamp, rowOfStore store br.bucket)

/-! ## Aggregation-engine flush step

The ticker branch of `AggregatesProcessor::run`
(`src/consumer/src/aggregates.rs` lines 109-134): drain the accumulator, run
every `update_aggregate`, and only if none failed mark the drained offsets;
any failure raises an error before any `mark_processed` call. -/

/-- `SubStream` of `event_queue::consumer`: topic and partition. -/
structure SubStream where
  topic : String
  partition : Int
deriving DecidableEq, Repr

/-- One flush: `update_result` tells which drained updates succeed (the DB
oracle); the result is the engine's outcome together with the offsets it
marked processed. -/
def AggregatesProcessor.flush
    (to_store : List ((Action × AggregatesBucket) × Nat × Nat))
    (update_result : (Action × AggregatesBucket) → Nat × Nat → Bool)
    (to_mark : List (SubStream × Int)) :
    Except String Unit × List (SubStream × Int) :=
  let error_flag := to_store.any (fun e => ! update_result e.1 e.2)
  if error_flag then
    (.error "Aggregates update failed", [])
  else
    (.ok (), to_mark)

/-! ## Event-bus producers

`EventProducer::produce` (`src/event_queue/src/producer.rs` lines 43-61) and
`TagProducer::produce` (`src/tag_queue/src/producer.rs` lines 28-46).
`serde_json::to_vec` is modelled by the serializer parameter `ser`. -/

/-- `rdkafka::FutureRecord` as filled in by the producers. -/
structure FutureRecord where
  topic : String
  partition : Option Int
  payload : Option String
  key : Option String
  timestamp : Option Int
deriving DecidableEq, Repr

/-- `EventProducer::produce`: the record sent for one event. -/
def EventProducer.produce (ser : UserTag → String) (topic : String) (event : UserTag) :
    FutureRecord :=
  { topic := topic
    partition := none
    payload := some (ser event)
    key := none
    timestamp := none }

/-- `TagProducer::produce`: the record sent for one tag. -/
def TagProducer.produce (ser : UserTag → String) (topic : String) (tag : UserTag) :
    FutureRecord :=
  { topic := topic
    partition := none
    payload := some (ser tag)
    key := none
    timestamp := none }

/-! ## Time-range string parsing

`TimeRangeVisitor::visit_str` of `src/api_server/src/time_range.rs` (lines
58-89, generic over the `BUCKETS` flag) and the rfc3339-based visitor of
`src/api_server/src/user_profiles.rs` (lines 43-64).  The chrono parsing
functions are modelled character by character: `%Y-%m-%dT%H:%M:%S` with an
optional `%.3f` fraction (a dot plus exactly three digits, or nothing), full
input consumption, and field-range validation; `parse_from_rfc3339`
additionally parses an arbitrary fraction and then a mandatory offset
(`Z` or `+hh:mm`/`-hh:mm`) - RFC 3339 has no offset-free form, which is what
the source's own TODO comment on line 44 concedes.  Negative years and leap
seconds are outside the inputs any claim touches and are not modelled. -/

/-- Decimal digit test. -/
def isDigitChar (c : Char) : Bool := decide ('0' ≤ c) && decide (c ≤ '9')

/-- Value of a decimal digit character. -/
def digitVal (c : Char) : Nat := c.toNat - '0'.toNat

/-- Greedy run of at most `width` digits. -/
def takeDigitsUpTo : Nat → List Char → List Char × List Char
| 0, s => ([], s)
| _ + 1, [] => ([], [])
| width + 1, c :: rest =>
  if isDigitChar c then
    let (ds, r) := takeDigitsUpTo width rest
    (c :: ds, r)
  else
    ([], c :: rest)

/-- Numeric value of a digit run. -/
def readNat (ds : List Char) : Nat := ds.foldl (fun a c => 10 * a + digitVal c) 0

/-- Parse 1 to `width` digits. -/
def pNum (width : Nat) (s : List Char) : Option (Nat × List Char) :=
  let (ds, r) := takeDigitsUpTo width s
  if ds.isEmpty then none else some (readNat ds, r)

/-- Expect one literal character. -/
def pChar (ch : Char) : List Char → Option (List Char)
| [] => none
| c :: rest => if c = ch then some rest else none

/-- Gregorian leap-year rule. -/
def isLeapYear (year : Nat) : Bool :=
  (year % 4 = 0 && ¬ year % 100 = 0) || year % 400 = 0

/-- Days of a month. -/
def daysInMonth (year month : Nat) : Nat :=
  if month = 2 then (if isLeapYear year then 29 else 28)
  else if month = 4 ∨ month = 6 ∨ month = 9 ∨ month = 11 then 30
  else 31

/-- A parsed calendar datetime (chrono `NaiveDateTime`, millisecond
precision). -/
structure NaiveDT where
  year : Nat
  month : Nat
  day : Nat
  hour : Nat
  minute : Nat
  second : Nat
  millis : Nat
deriving DecidableEq, Repr

/-- Days since the Unix epoch of a civil date (Gregorian, proleptic). -/
def daysFromCivil (year : Int) (month day : Nat) : Int :=
  let y := if month ≤ 2 then year - 1 else year
  let era := y / 400
  let yoe := y - era * 400
  let mp : Int := if month > 2 then (month : Int) - 3 else (month : Int) + 9
  let doy := (153 * mp + 2) / 5 + (day : Int) - 1
  let doe := yoe * 365 + yoe / 4 - yoe / 100 + doy
  era * 146097 + doe - 719468

/-- Epoch milliseconds of a parsed datetime; chrono's ordering and
subtraction of datetimes agree with this readout. -/
def NaiveDT.toMillis (dt : NaiveDT) : Int :=
  daysFromCivil (dt.year : Int) dt.month dt.day * 86400000
    + (dt.hour : Int) * 3600000 + (dt.minute : Int) * 60000
    + (dt.second : Int) * 1000 + (dt.millis : Int)

/-- The shared `%Y-%m-%dT%H:%M:%S` core of both formats, returning the
unconsumed remainder. -/
def parseCoreFields (s : List Char) : Option (NaiveDT × List Char) := do
  let (year, s) ← pNum 6 s
  let s ← pChar '-' s
  let (month, s) ← pNum 2 s
  let s ← pChar '-' s
  let (day, s) ← pNum 2 s
  let s ← pChar 'T' s
  let (hour, s) ← pNum 2 s
  let s ← pChar ':' s
  let (minute, s) ← pNum 2 s
  let s ← pChar ':' s
  let (second, s) ← pNum 2 s
  if 1 ≤ month && month ≤ 12 && 1 ≤ day && day ≤ daysInMonth year month
      && hour ≤ 23 && minute ≤ 59 && second ≤ 59 then
    some (⟨year, month, day, hour, minute, second, 0⟩, s)
  else
    none

/-- `NaiveDateTime::parse_from_str` with `FORMAT_STR_SECONDS`
(`%Y-%m-%dT%H:%M:%S`): the whole input must be consumed, so any trailing
fraction is a parse error. -/
def parseSecondsFmt (s : List Char) : Option NaiveDT :=
  match parseCoreFields s with
  | some (dt, []) => some dt
  | _ => none

/-- The `%.3f` item: a dot plus exactly three digits. -/
def pFrac3 : List Char → Option (Nat × List Char)
| '.' :: a :: b :: c :: rest =>
  if isDigitChar a && isDigitChar b && isDigitChar c then
    some (100 * digitVal a + 10 * digitVal b + digitVal c, rest)
  else
    none
| _ => none

/-- `NaiveDateTime::parse_from_str` with `FORMAT_STR_MILLIS`
(`%Y-%m-%dT%H:%M:%S%.3f`): when parsing, `%.3f` matches either nothing or a
dot followed by exactly three digits, so both second-precision and
millisecond-precision inputs are accepted. -/
def parseMillisFmt (s : List Char) : Option NaiveDT :=
  match parseCoreFields s with
  | some (dt, []) => some dt
  | some (dt, rest) =>
    match pFrac3 rest with
    | some (ms, []) => some { dt with millis := ms }
    | _ => none
  | none => none

/-- `str::split(sep)` on a character list (an empty input yields one empty
chunk, like Rust). -/
def splitChar (sep : Char) : List Char → List (List Char)
| [] => [[]]
| c :: rest =>
  if c = sep then
    [] :: splitChar sep rest
  else
    match splitChar sep rest with
    | [] => [[c]]
    | chunk :: chunks => (c :: chunk) :: chunks

/-- `TimeRangeVisitor::visit_str` (`src/api_server/src/time_range.rs` lines
58-89): split on `_`, parse both chunks with the format selected by the
`BUCKETS` flag, reject a third chunk or `from > to`, and for bucket ranges
additionally reject non-zero seconds and spans above 10 minutes. -/
def TimeRange.visit_str (BUCKETS : Bool) (v : List Char) : Option (NaiveDT × NaiveDT) :=
  let fmtParse := if BUCKETS then parseSecondsFmt else parseMillisFmt
  match splitChar '_' v with
  | [a, b] =>
    match fmtParse a, fmtParse b with
    | some dfrom, some dto =>
      if dfrom.toMillis > dto.toMillis then none
      else if BUCKETS
          && (¬ dfrom.second = 0 || ¬ dto.second = 0
            || decide (dto.toMillis - dfrom.toMillis > 600000)) then none
      else some (dfrom, dto)
    | _, _ => none
  | _ => none

/-- Two digits exactly. -/
def pDigit2 : List Char → Option (Nat × List Char)
| a :: b :: rest =>
  if isDigitChar a && isDigitChar b then some (10 * digitVal a + digitVal b, rest)
  else none
| _ => none

/-- RFC 3339 fraction: a dot plus at least one digit, milliseconds kept. -/
def pFracAny (s : List Char) : Option (Nat × List Char) :=
  match s with
  | '.' :: rest =>
    let (ds, r) := takeDigitsUpTo 9 rest
    if ds.isEmpty then none
    else
      let first3 := ds.take 3
      some (readNat first3 * 10 ^ (3 - first3.length), r)
  | _ => none

/-- RFC 3339 offset: `Z` or a signed `hh:mm`, in seconds.  Mandatory in RFC
3339; there is no offset-free form. -/
def parseOffset : List Char → Option (Int × List Char)
| 'Z' :: rest => some (0, rest)
| '+' :: rest => do
  let (h, rest) ← pDigit2 rest
  let rest ← pChar ':' rest
  let (m, rest) ← pDigit2 rest
  some ((((h * 60 + m : Nat) : Int) * 60, rest))
| '-' :: rest => do
  let (h, rest) ← pDigit2 rest
  let rest ← pChar ':' rest
  let (m, rest) ← pDigit2 rest
  some ((-(((h * 60 + m : Nat) : Int) * 60), rest))
| _ => none

/-- `DateTime::parse_from_rfc3339`: datetime fields, an optional fraction,
then a mandatory offset, consuming the whole input.  Returns the parsed
fields and the offset in seconds. -/
def parse_from_rfc3339 (s : List Char) : Option (NaiveDT × Int) := do
  let (dt, rest) ← parseCoreFields s
  let (ms, rest) ← match pFracAny rest with
    | some (ms, r) => some (ms, r)
    | none => some ((0 : Nat), rest)
  let (offsetSec, rest) ← parseOffset rest
  if rest.isEmpty then some ({ dt with millis := ms }, offsetSec) else none

/-- UTC instant of an RFC 3339 parse result (`with_timezone(&Utc)`). -/
def rfc3339InstantMillis (p : NaiveDT × Int) : Int := p.1.toMillis - p.2 * 1000

/-- The profile-endpoint visitor of `src/api_server/src/user_profiles.rs`
(lines 43-64): split on `_`, parse both chunks with
`DateTime::parse_from_rfc3339`, reject a third chunk or `from > to`. -/
def UserProfilesTimeRange.visit_str (v : List Char) : Option (Int × Int) :=
  match splitChar '_' v with
  | [a, b] =>
    match parse_from_rfc3339 a, parse_from_rfc3339 b with
    | some pf, some pt =>
      let f := rfc3339InstantMillis pf
      let t := rfc3339InstantMillis pt
      if f > t then none else some (f, t)
    | _, _ => none
  | _ => none

/-! ## Aggregates query-string parsing

`AggregatesQuery::from_pairs` (`src/database/src/aggregates.rs` lines
46-101; the `src/api_server/src/aggregates.rs` version, lines 35-84, differs
only in how it feeds the values to serde).  The serde deserializations of
the individual parameter values are the enum-name matches below and the
buckets-range visitor above. -/

/-- serde of `Action` (rename_all = UPPERCASE). -/
def parseActionStr (s : String) : Option Action :=
  if s = "VIEW" then some .view
  else if s = "BUY" then some .buy
  else none

/-- serde of `Aggregate` (rename_all = SCREAMING_SNAKE_CASE). -/
def parseAggregateStr (s : String) : Option Aggregate :=
  if s = "COUNT" then some .count
  else if s = "SUM_PRICE" then some .sumPrice
  else none

/-- serde of `BucketsRange`: the buckets visitor, instants as epoch
milliseconds. -/
def parseBucketsRange (s : String) : Option BucketsRange :=
  (TimeRange.visit_str true s.toList).map (fun p => ⟨p.1.toMillis, p.2.toMillis⟩)

/-- The fold of `from_pairs` over the remaining pairs, carrying the six
accumulators; each arm fires only for the first occurrence of its key
(`aggregates` up to twice, duplicates rejected), any other pair is an
immediate `None`, and at the end `aggregates` must be non-empty and
`time_range` and `action` must both be present. -/
def AggregatesQuery.from_pairs_go :
    List (String × String) → Option BucketsRange → Option Action →
    Option String → Option String → Option String → List Aggregate →
    Option AggregatesQuery
| [], time_range, action, origin, brand_id, category_id, aggregates =>
  if aggregates.isEmpty then none
  else
    match time_range, action with
    | some tr, some ac => some ⟨tr, ac, origin, brand_id, category_id, aggregates⟩
    | _, _ => none
| (key, value) :: rest, time_range, action, origin, brand_id, category_id, aggregates =>
  if key = "time_range" && time_range.isNone then
    match parseBucketsRange value with
    | some tr =>
      AggregatesQuery.from_pairs_go rest (some tr) action origin brand_id category_id aggregates
    | none => none
  else if key = "action" && action.isNone then
    match parseActionStr value with
    | some ac =>
      AggregatesQuery.from_pairs_go rest time_range (some ac) origin brand_id category_id aggregates
    | none => none
  else if key = "origin" && origin.isNone then
    AggregatesQuery.from_pairs_go rest time_range action (some value) brand_id category_id aggregates
  else if key = "brand_id" && brand_id.isNone then
    AggregatesQuery.from_pairs_go rest time_range action origin (some value) category_id aggregates
  else if key = "category_id" && category_id.isNone then
    AggregatesQuery.from_pairs_go rest time_range action origin brand_id (some value) aggregates
  else if key = "aggregates" && aggregates.length < 2 then
    match parseAggregateStr value with
    | some aggregate =>
      if aggregates.contains aggregate then none
      else
        AggregatesQuery.from_pairs_go rest time_range action origin brand_id category_id
          (aggregates ++ [aggregate])
    | none => none
  else
    none

/-- `AggregatesQuery::from_pairs`. -/
def AggregatesQuery.from_pairs (pairs : List (String × String)) : Option AggregatesQuery :=
  AggregatesQuery.from_pairs_go pairs none none none none none []

/-! ## Concrete inputs used by the closed theorems below -/

/-- A concrete event: origin `EU`, brand `B1`, category `C1`, price 100. -/
def exampleTag : UserTag :=
  { time := 1000
    cookie := "c1"
    country := "PL"
    device := .pc
    action := .buy
    origin := "EU"
    product_info := { product_id := 7, brand_id := "B1", category_id := "C1", price := 100 } }

/-- A concrete aggregates query filtering on origin `EU` and brand `B1`. -/
def exampleQuery : AggregatesQuery :=
  { time_range := ⟨0, 60000⟩
    action := .buy
    origin := some "EU"
    brand_id := some "B1"
    category_id := none
    aggregates := [.count] }

/-- The projection mask materializing origin and brand. -/
def exampleFilter : AggregatesFilter := ⟨true, true, false⟩

/-- A concrete deserializer: the payload `"[]"` decodes to no tags and the
payload `"[tag]"` decodes to the one example tag. -/
def exampleDec : String → Except String (List UserTag) :=
  fun s =>
    if s = "[]" then .ok []
    else if s = "[tag]" then .ok [exampleTag]
    else .error "could not deserialize user tags"

/-- A deserializer that always returns the empty list. -/
def exampleDecEmpty : String → Except String (List UserTag) := fun _ => .ok []

/-- A concrete serializer for tag lists. -/
def exampleEnc : List UserTag → String := fun tags => toString tags.length

/-- A concrete event serializer. -/
def exampleSer : UserTag → String := fun tag => tag.cookie ++ ":json"

/-- A profile record whose `view` bin decodes to `[]` and whose `buy` bin
decodes to `[exampleTag]`. -/
def exampleRecord : DbRecord := ⟨[("view", .str "[]"), ("buy", .str "[tag]")], 1⟩

/-- A profile query whose window contains `exampleTag.time`. -/
def exampleProfilesQuery : UserProfilesQuery := ⟨0, 1000000, 200⟩

/-- An attempt environment whose read finds no record and whose write always
hits a generation conflict. -/
def genConflictAttempt : Attempt := ⟨.error .keyNotFound, fun _ => .generationError⟩

/-- An attempt environment whose read finds no record and whose write
succeeds. -/
def successAttempt : Attempt := ⟨.error .keyNotFound, fun _ => .ok⟩

/-- A stored aggregate record with `count = 5`, `sum_price = 70`,
generation 3. -/
def exampleAggRecord : DbRecord :=
  ⟨[("count", .int 5), ("sum_price", .int 70)], 3⟩

/-- A two-minute aggregates query with no optional dimensions. -/
def exampleQuery5 : AggregatesQuery :=
  { time_range := ⟨0, 120000⟩
    action := .buy
    origin := none
    brand_id := none
    category_id := none
    aggregates := [.count] }

/-- An empty aggregate store. -/
def exampleStore5 : AggregatesBucket → Option DbRecord := fun _ => none

/-- The batch response for `exampleQuery5`, returned in reversed order. -/
def exampleResp5 : List BatchRead :=
  [⟨⟨1, none, none, none⟩, none⟩, ⟨⟨0, none, none, none⟩, none⟩]

/-! # Theorems -/

/-! ## C4 - the bucket key built from a query -/

/-- C4: the record key constructed for the batched aggregate point-read does
NOT embed the query's `origin`, `brand_id`, `category_id` in that order:
both `DbClient::get_aggregates` and `SimpleDbClient::get_aggregates` pass
`query.origin` for the `brand_id` slot, so for a query with
`origin = "EU"`, `brand_id = "B1"` the key renders `0--EU--EU--` while the
key of a matching event (origin `EU`, brand `B1`, same minute, projection
{origin, brand_id}) renders `0--EU--B1--`; the two keys differ, refuting the
claimed equality. -/
theorem aggregates_query_key_embeds_origin_twice :
    (DbClient.queryBucket exampleQuery 0).render = "0--EU--EU--"
    ∧ (SimpleDbClient.queryBucket exampleQuery 0).render = "0--EU--EU--"
    ∧ (exampleFilter.make_bucket { exampleTag with time := 0 }).render = "0--EU--B1--"
    ∧ ¬ (DbClient.queryBucket exampleQuery 0).render
        = (exampleFilter.make_bucket { exampleTag with time := 0 }).render
    ∧ ¬ (SimpleDbClient.queryBucket exampleQuery 0).render
        = (exampleFilter.make_bucket { exampleTag with time := 0 }).render := by
  decide

/-! ## C3 - which bin each profile list is read from -/

/-- C3: `SimpleDbClient::get_user_profile` (`src/database/src/client.rs` line
106) deserializes the `views` list from the `buy` bin: on a record whose
`view` bin decodes to `[]` and whose `buy` bin decodes to `[exampleTag]` it
returns `views = [exampleTag]`, not the `view` bin's contents; the
`DbClient` variant (`src/src/db_client.rs`) returns the claimed
`views = []`. -/
theorem get_user_profile_views_read_from_buy_bin :
    SimpleDbClient.get_user_profile exampleDec (.ok exampleRecord) "c1" exampleProfilesQuery
      = .ok ⟨"c1", [exampleTag], [exampleTag]⟩
    ∧ parse_user_tags exampleDec exampleRecord .view = .ok []
    ∧ DbClient.get_user_profile exampleDec (.ok exampleRecord) "c1" exampleProfilesQuery
      = .ok ⟨"c1", [], [exampleTag]⟩ := by
  decide

/-! ## C7 - time-range parsing -/

/-- C7: the buckets visitor of `src/api_server/src/time_range.rs` behaves as
claimed on concrete inputs (accepts a 10-minute second-precision range;
rejects non-zero seconds, milliseconds, inverted endpoints and spans over 10
minutes), and the generic simple visitor of the same file accepts both
millisecond- and second-precision inputs and rejects inverted endpoints; but
the profile-endpoint visitor of `src/api_server/src/user_profiles.rs` uses
`DateTime::parse_from_rfc3339`, which requires an offset, so it rejects the
very inputs its own unit test `ser_de_timerange` asserts it accepts. -/
theorem time_range_visitors_on_spec_inputs :
    UserProfilesTimeRange.visit_str
        "2022-03-22T12:15:00.000_2022-03-22T12:30:00.000".toList = none
    ∧ UserProfilesTimeRange.visit_str
        "2022-03-22T12:15:00_2022-03-22T12:30:00".toList = none
    ∧ (UserProfilesTimeRange.visit_str
        "2022-03-22T12:15:00.000Z_2022-03-22T12:30:00.000Z".toList).isSome = true
    ∧ (TimeRange.visit_str false
        "2022-03-22T12:15:00.000_2022-03-22T12:30:00.000".toList).isSome = true
    ∧ (TimeRange.visit_str false
        "2022-03-22T12:15:00_2022-03-22T12:30:00".toList).isSome = true
    ∧ TimeRange.visit_str false
        "2022-03-22T12:30:00.000_2022-03-22T12:15:00.000".toList = none
    ∧ (TimeRange.visit_str true
        "2022-03-22T12:15:00_2022-03-22T12:25:00".toList).isSome = true
    ∧ TimeRange.visit_str true
        "2022-03-22T12:20:01_2022-03-22T12:22:00".toList = none
    ∧ TimeRange.visit_str true
        "2022-03-22T12:15:00.000_2022-03-22T12:25:00.000".toList = none
    ∧ TimeRange.visit_str true
        "2022-03-22T12:30:00_2022-03-22T12:25:00".toList = none
    ∧ TimeRange.visit_str true
        "2022-03-22T12:20:00_2022-03-22T12:31:00".toList = none := by
  decide

/-! ## C9 - the produced event-bus record -/

/-- C9 (counterexample): the claim says the produced message carries the
event's cookie as its key; in fact both producers set `key: None`, so the
key is not `some cookie` for the concrete example event. -/
theorem producer_key_is_not_cookie :
    ¬ (EventProducer.produce exampleSer "tags" exampleTag).key = some exampleTag.cookie
    ∧ ¬ (TagProducer.produce exampleSer "tags" exampleTag).key = some exampleTag.cookie := by
  decide

/-- C9 (amended): for every serializer, topic and event, both producers
enqueue a record with no key (so no per-cookie partition affinity) whose
payload is the serialized event. -/
theorem producer_record_no_key_payload_serialized
    (ser : UserTag → String) (topic : String) (event : UserTag) :
    (EventProducer.produce ser topic event).key = none
    ∧ (EventProducer.produce ser topic event).payload = some (ser event)
    ∧ (EventProducer.produce ser topic event).topic = topic
    ∧ (TagProducer.produce ser topic event).key = none
    ∧ (TagProducer.produce ser topic event).payload = some (ser event)
    ∧ (TagProducer.produce ser topic event).topic = topic :=
  ⟨rfl, rfl, rfl, rfl, rfl, rfl⟩

/-! ## C8 - flush before offset commit -/

/-- C8: in one flush of the aggregation engine, offsets are marked processed
only when every drained accumulator entry was written successfully; if any
update fails the flush surfaces an error and marks nothing; and when all
updates succeed the drained offsets are exactly the ones marked. -/
theorem flush_marks_only_after_all_updates
    (to_store : List ((Action × AggregatesBucket) × Nat × Nat))
    (update_result : (Action × AggregatesBucket) → Nat × Nat → Bool)
    (to_mark : List (SubStream × Int)) :
    (¬ (AggregatesProcessor.flush to_store update_result to_mark).2 = [] →
      (∀ e ∈ to_store, update_result e.1 e.2 = true)
        ∧ (AggregatesProcessor.flush to_store update_result to_mark).1 = .ok ())
    ∧ ((∃ e ∈ to_store, update_result e.1 e.2 = false) →
      AggregatesProcessor.flush to_store update_result to_mark
        = (.error "Aggregates update failed", []))
    ∧ ((∀ e ∈ to_store, update_result e.1 e.2 = true) →
      AggregatesProcessor.flush to_store update_result to_mark = (.ok (), to_mark)) := by
  refine ⟨fun hne => ?_, fun hex => ?_, fun hall => ?_⟩
  · by_cases h : to_store.any (fun e => ! update_result e.1 e.2) = true
    · exact absurd (by simp [AggregatesProcessor.flush, h]) hne
    · rw [Bool.not_eq_true, List.any_eq_false] at h
      refine ⟨fun e he => ?_, by simp [AggregatesProcessor.flush, List.any_eq_false.mpr h]⟩
      simpa using h e he
  · obtain ⟨e, he, hfail⟩ := hex
    have h : to_store.any (fun e => ! update_result e.1 e.2) = true :=
      List.any_eq_true.mpr ⟨e, he, by simp [hfail]⟩
    simp [AggregatesProcessor.flush, h]
  · have h : to_store.any (fun e => ! update_result e.1 e.2) = false := by
      rw [List.any_eq_false]
      intro e he
      simp [hall e he]
    simp [AggregatesProcessor.flush, h]

/-- C8 (witness): a concrete flush where every update succeeds marks exactly
the drained offsets. -/
theorem flush_marks_only_after_all_updates_witness :
    AggregatesProcessor.flush
        [((Action.buy, exampleFilter.make_bucket exampleTag), 1, 100)]
        (fun _ _ => true) [(⟨"topic", 0⟩, 5)]
      = (.ok (), [(⟨"topic", 0⟩, 5)]) :=
  (flush_marks_only_after_all_updates
    [((Action.buy, exampleFilter.make_bucket exampleTag), 1, 100)]
    (fun _ _ => true) [(⟨"topic", 0⟩, 5)]).2.2 (by decide)

/-! ## C6 - the stored profile list is bounded and time-descending -/

/-- Transitivity of the descending-time comparator. -/
theorem profileDescLe_trans (a b c : UserTag) :
    profileDescLe a b = true → profileDescLe b c = true → profileDescLe a c = true := by
  simp only [profileDescLe, decide_eq_true_eq]
  omega

/-- Totality of the descending-time comparator. -/
theorem profileDescLe_total (a b : UserTag) :
    (profileDescLe a b || profileDescLe b a) = true := by
  simp only [profileDescLe, Bool.or_eq_true, decide_eq_true_eq]
  omega

/-- C6: for every stored list (whatever state the read returned) and every
new event, the list the profile update writes back has at most 200 entries
and is sorted descending by event time; consequently the stored list keeps
both properties across every sequence of updates. -/
theorem profile_update_bounded_and_sorted (tags : List UserTag) (tag : UserTag) :
    (updated_tags tags tag).length ≤ PROFILE_TAGS_LIMIT
    ∧ List.Pairwise (fun a b : UserTag => b.time ≤ a.time) (updated_tags tags tag)
    ∧ (∀ (init evs : List UserTag),
        (List.foldl updated_tags init (evs ++ [tag])).length ≤ PROFILE_TAGS_LIMIT
        ∧ List.Pairwise (fun a b : UserTag => b.time ≤ a.time)
            (List.foldl updated_tags init (evs ++ [tag]))) := by
  have key : ∀ (ts : List UserTag) (t : UserTag),
      (updated_tags ts t).length ≤ PROFILE_TAGS_LIMIT
      ∧ List.Pairwise (fun a b : UserTag => b.time ≤ a.time) (updated_tags ts t) := by
    intro ts t
    constructor
    · have hlen : (((ts ++ [t]).mergeSort profileDescLe).take PROFILE_TAGS_LIMIT).length
          ≤ PROFILE_TAGS_LIMIT := by
        rw [List.length_take]
        exact min_le_left _ _
      simp only [updated_tags]
      exact hlen
    · have hs := List.sorted_mergeSort profileDescLe_trans profileDescLe_total (ts ++ [t])
      have hs2 : List.Pairwise (fun a b : UserTag => b.time ≤ a.time)
          ((ts ++ [t]).mergeSort profileDescLe) := by
        refine hs.imp (fun h => ?_)
        simpa [profileDescLe] using h
      exact hs2.sublist (List.take_sublist _ _)
  refine ⟨(key tags tag).1, (key tags tag).2, fun init evs => ?_⟩
  rw [List.foldl_append]
  exact ⟨(key _ tag).1, (key _ tag).2⟩

/-! ## C1 - one successful aggregate update step -/

/-- After a `put` of the two aggregate bins, reading them back gives exactly
the written values, whatever bins the record held before. -/
theorem getBin_after_agg_put (old : List (String × DbValue)) (g : Nat) (c s : Int) :
    (DbRecord.mk (mergeBins old
        [(Aggregate.count.db_name, .int c), (Aggregate.sumPrice.db_name, .int s)]) g).getBin
      Aggregate.count.db_name = some (.int c)
    ∧ (DbRecord.mk (mergeBins old
        [(Aggregate.count.db_name, .int c), (Aggregate.sumPrice.db_name, .int s)]) g).getBin
      Aggregate.sumPrice.db_name = some (.int s) := by
  have hnone : ∀ name : String,
      name = Aggregate.count.db_name ∨ name = Aggregate.sumPrice.db_name →
      (old.filter (fun bin =>
        ([(Aggregate.count.db_name, DbValue.int c),
          (Aggregate.sumPrice.db_name, DbValue.int s)] :
            List (String × DbValue)).all
          (fun nb => ¬ nb.1 = bin.1))).find? (fun bin => bin.1 = name) = none := by
    intro name hname
    rw [List.find?_eq_none]
    intro x hx hpred
    rw [List.mem_filter] at hx
    have hall := hx.2
    simp only [List.all_cons, List.all_nil, Bool.and_true, Bool.and_eq_true,
      decide_eq_true_eq] at hall
    have hxname : x.1 = name := by simpa using hpred
    rcases hname with hname | hname
    · exact hall.1 (by rw [hxname, hname])
    · exact hall.2 (by rw [hxname, hname])
  constructor
  · show ((mergeBins old _).find? _).map _ = _
    unfold mergeBins
    rw [List.find?_append, hnone _ (Or.inl rfl)]
    simp [Aggregate.db_name]
  · show ((mergeBins old _).find? _).map _ = _
    unfold mergeBins
    rw [List.find?_append, hnone _ (Or.inr rfl)]
    simp [Aggregate.db_name]

/-- A well-formed present record has both integer bins. -/
theorem aggStateWF_some {record : DbRecord} (h : aggStateWF (some record) = true) :
    (∃ i, record.getBin Aggregate.count.db_name = some (.int i))
    ∧ (∃ j, record.getBin Aggregate.sumPrice.db_name = some (.int j)) := by
  unfold aggStateWF at h
  rw [Bool.and_eq_true] at h
  constructor
  · rcases hc : record.getBin Aggregate.count.db_name with - | v
    · rw [hc] at h
      simp at h
    · rcases v with i | s | u
      · exact ⟨i, rfl⟩
      · rw [hc] at h
        simp at h
      · rw [hc] at h
        simp at h
  · rcases hs : record.getBin Aggregate.sumPrice.db_name with - | v
    · rw [hs] at h
      simp at h
    · rcases v with i | s | u
      · exact ⟨i, rfl⟩
      · rw [hs] at h
        simp at h
      · rw [hs] at h
        simp at h

/-- C1: a single conflict-free step of the aggregate update reads
`(count, sum_price, generation)` - `(0, 0, 0)` when the record is absent -
and writes back exactly the old pair plus the deltas to the two integer
bins, under `ExpectGenEqual` of the read generation and a 24-hour expiry;
after the step the stored bins hold exactly `old + delta`. -/
theorem update_aggregate_step_adds_deltas
    (st : Option DbRecord) (count sum_price : Int) (h : aggStateWF st = true) :
    (∃ req : PutRequest,
      DbClient.try_update_aggregate_request (readRecord st) count sum_price = .ok req
      ∧ req.policy.generation = recordGeneration st
      ∧ req.policy.expiration = some SECONDS_IN_DAY
      ∧ req.bins = [(Aggregate.count.db_name, .int (aggValue st .count + count)),
          (Aggregate.sumPrice.db_name, .int (aggValue st .sumPrice + sum_price))])
    ∧ (∃ st2 : Option DbRecord,
      DbClient.update_aggregate_step st count sum_price = .ok (.ok, st2)
      ∧ aggValue st2 .count = aggValue st .count + count
      ∧ aggValue st2 .sumPrice = aggValue st .sumPrice + sum_price) := by
  have hreq : DbClient.try_update_aggregate_request (readRecord st) count sum_price
      = .ok { policy := ⟨recordGeneration st, some SECONDS_IN_DAY⟩
              bins := [(Aggregate.count.db_name, .int (aggValue st .count + count)),
                       (Aggregate.sumPrice.db_name,
                         .int (aggValue st .sumPrice + sum_price))] } := by
    cases st with
    | none => rfl
    | some record =>
      obtain ⟨⟨i, hc⟩, ⟨j, hs⟩⟩ := aggStateWF_some h
      have hvc : aggValue (some record) .count = i := by
        simp [aggValue, hc]
      have hvs : aggValue (some record) .sumPrice = j := by
        simp [aggValue, hs]
      simp only [DbClient.try_update_aggregate_request, readRecord, parse_aggregate, hc, hs,
        recordGeneration, hvc, hvs]
      rfl
  constructor
  · exact ⟨_, hreq, rfl, rfl, rfl⟩
  · set c2 := aggValue st .count + count with hc2
    set s2 := aggValue st .sumPrice + sum_price with hs2
    refine ⟨some ⟨mergeBins (recordBins st)
        [(Aggregate.count.db_name, .int c2), (Aggregate.sumPrice.db_name, .int s2)],
        recordGeneration st + 1⟩, ?_, ?_, ?_⟩
    · unfold DbClient.update_aggregate_step
      rw [hreq]
      show Except.ok (casPut st _) = _
      unfold casPut
      simp
    · have hg := (getBin_after_agg_put (recordBins st) (recordGeneration st + 1) c2 s2).1
      simp [aggValue, hg]
    · have hg := (getBin_after_agg_put (recordBins st) (recordGeneration st + 1) c2 s2).2
      simp [aggValue, hg]

/-- C1 (witness): the step applied to a concrete stored record
`(count = 5, sum_price = 70, generation = 3)` with deltas `(1, 100)`. -/
theorem update_aggregate_step_adds_deltas_witness :
    aggStateWF (some exampleAggRecord) = true
    ∧ ((∃ req : PutRequest,
      DbClient.try_update_aggregate_request (readRecord (some exampleAggRecord)) 1 100 = .ok req
      ∧ req.policy.generation = recordGeneration (some exampleAggRecord)
      ∧ req.policy.expiration = some SECONDS_IN_DAY
      ∧ req.bins = [(Aggregate.count.db_name,
            .int (aggValue (some exampleAggRecord) .count + 1)),
          (Aggregate.sumPrice.db_name,
            .int (aggValue (some exampleAggRecord) .sumPrice + 100))])
    ∧ (∃ st2 : Option DbRecord,
      DbClient.update_aggregate_step (some exampleAggRecord) 1 100 = .ok (.ok, st2)
      ∧ aggValue st2 .count = aggValue (some exampleAggRecord) .count + 1
      ∧ aggValue st2 .sumPrice = aggValue (some exampleAggRecord) .sumPrice + 100)) :=
  ⟨by decide, update_aggregate_step_adds_deltas (some exampleAggRecord) 1 100 (by decide)⟩

/-! ## C2 - generation conflicts and the CAS retry loops -/

/-- The profile read phase only fails with fetch or parse errors. -/
theorem profile_read_tags_error_cases
    (dec : String → Except String (List UserTag)) (readRes : ReadResult) (action : Action)
    (e : UpdateError) (h : profile_read_tags dec readRes action = .error e) :
    e = .parseFailed ∨ e = .fetchFailed := by
  unfold profile_read_tags at h
  split at h
  · split at h
    · exact absurd h (by simp)
    · injection h with h2
      exact Or.inl h2.symm
  · exact absurd h (by simp)
  · injection h with h2
    exact Or.inr h2.symm

/-- The aggregate read-and-apply phase only fails with fetch or parse
errors. -/
theorem try_update_aggregate_request_error_cases
    (readRes : ReadResult) (count sum_price : Int) (e : UpdateError)
    (h : DbClient.try_update_aggregate_request readRes count sum_price = .error e) :
    e = .parseFailed ∨ e = .fetchFailed := by
  unfold DbClient.try_update_aggregate_request at h
  split at h
  · split at h
    · injection h with h2
      exact Or.inl h2.symm
    · split at h
      · injection h with h2
        exact Or.inl h2.symm
      · exact absurd h (by simp)
  · exact absurd h (by simp)
  · injection h with h2
    exact Or.inr h2.symm

/-- `try_update_user_profile` never surfaces a generation error. -/
theorem try_update_user_profile_no_genError
    (dec : String → Except String (List UserTag)) (enc : List UserTag → String)
    (a : Attempt) (tag : UserTag) (e : UpdateError)
    (h : DbClient.try_update_user_profile dec enc a tag = .error e) :
    ¬ e = .putFailed .generationError := by
  unfold DbClient.try_update_user_profile at h
  split at h
  next e' hr =>
    injection h with h2
    rcases profile_read_tags_error_cases dec a.readRes tag.action e' hr with h' | h' <;>
      simp [← h2, h']
  next tags generation hr =>
    split at h
    · exact absurd h (by simp)
    · exact absurd h (by simp)
    next m hp =>
      injection h with h2
      simp [← h2]

/-- `try_update_aggregate` never surfaces a generation error. -/
theorem try_update_aggregate_no_genError
    (a : Attempt) (count sum_price : Int) (e : UpdateError)
    (h : DbClient.try_update_aggregate a count sum_price = .error e) :
    ¬ e = .putFailed .generationError := by
  unfold DbClient.try_update_aggregate at h
  split at h
  next e' hr =>
    injection h with h2
    rcases try_update_aggregate_request_error_cases a.readRes count sum_price e' hr with h' | h' <;>
      simp [← h2, h']
  next req hr =>
    split at h
    · exact absurd h (by simp)
    · exact absurd h (by simp)
    next m hp =>
      injection h with h2
      simp [← h2]

/-- C2 (amended): in `DbClient` (`src/src/db_client.rs`) the claim holds -
the profile and aggregate update loops classify a `GenerationError` write as
a retry (`Ok(false)`), never surface it, and retry from the top until the
CAS write succeeds or a different error occurs.  (`SimpleDbClient` instead
surfaces the conflict to its caller; see the counterexample theorem.) -/
theorem dbclient_updates_retry_generation_conflicts
    (dec : String → Except String (List UserTag)) (enc : List UserTag → String)
    (tag : UserTag) (count sum_price : Int) :
    (∀ (attempts : List Attempt) (e : UpdateError),
      DbClient.update_user_profile dec enc attempts tag = some (.error e) →
      ¬ e = .putFailed .generationError)
    ∧ (∀ (attempts : List Attempt) (e : UpdateError),
      DbClient.update_aggregate attempts count sum_price = some (.error e) →
      ¬ e = .putFailed .generationError)
    ∧ (∀ (a : Attempt) (tags : List UserTag) (generation : Nat),
      profile_read_tags dec a.readRes tag.action = .ok (tags, generation) →
      a.putRes (profile_put_request enc tags generation tag) = .generationError →
      DbClient.try_update_user_profile dec enc a tag = .ok false)
    ∧ (∀ (a : Attempt) (req : PutRequest),
      DbClient.try_update_aggregate_request a.readRes count sum_price = .ok req →
      a.putRes req = .generationError →
      DbClient.try_update_aggregate a count sum_price = .ok false)
    ∧ (∀ (pre : List Attempt) (a : Attempt),
      (∀ x ∈ pre, DbClient.try_update_user_profile dec enc x tag = .ok false) →
      DbClient.try_update_user_profile dec enc a tag = .ok true →
      DbClient.update_user_profile dec enc (pre ++ [a]) tag = some (.ok ()))
    ∧ (∀ (pre : List Attempt) (a : Attempt),
      (∀ x ∈ pre, DbClient.try_update_aggregate x count sum_price = .ok false) →
      DbClient.try_update_aggregate a count sum_price = .ok true →
      DbClient.update_aggregate (pre ++ [a]) count sum_price = some (.ok ())) := by
  refine ⟨?_, ?_, ?_, ?_, ?_, ?_⟩
  · intro attempts
    induction attempts with
    | nil =>
      intro e h
      exact absurd h (by simp [DbClient.update_user_profile])
    | cons a rest ih =>
      intro e h
      unfold DbClient.update_user_profile at h
      cases ht : DbClient.try_update_user_profile dec enc a tag with
      | ok b =>
        rw [ht] at h
        cases b with
        | true =>
          have h' : (some (Except.ok ()) : Option (Except UpdateError Unit))
              = some (.error e) := h
          exact absurd h' (by simp)
        | false => exact ih e h
      | error e' =>
        rw [ht] at h
        have h' : (some (Except.error e') : Option (Except UpdateError Unit))
            = some (.error e) := h
        injection h' with h2
        injection h2 with h3
        exact h3 ▸ try_update_user_profile_no_genError dec enc a tag e' ht
  · intro attempts
    induction attempts with
    | nil =>
      intro e h
      exact absurd h (by simp [DbClient.update_aggregate])
    | cons a rest ih =>
      intro e h
      unfold DbClient.update_aggregate at h
      cases ht : DbClient.try_update_aggregate a count sum_price with
      | ok b =>
        rw [ht] at h
        cases b with
        | true =>
          have h' : (some (Except.ok ()) : Option (Except UpdateError Unit))
              = some (.error e) := h
          exact absurd h' (by simp)
        | false => exact ih e h
      | error e' =>
        rw [ht] at h
        have h' : (some (Except.error e') : Option (Except UpdateError Unit))
            = some (.error e) := h
        injection h' with h2
        injection h2 with h3
        exact h3 ▸ try_update_aggregate_no_genError a count sum_price e' ht
  · intro a tags generation hread hput
    unfold DbClient.try_update_user_profile
    simp only [hread, hput]
  · intro a req hreq hput
    unfold DbClient.try_update_aggregate
    simp only [hreq, hput]
  · intro pre
    induction pre with
    | nil =>
      intro a _ ha
      simp [DbClient.update_user_profile, ha]
    | cons x rest ih =>
      intro a hpre ha
      have hx := hpre x (by simp)
      rw [List.cons_append]
      unfold DbClient.update_user_profile
      rw [hx]
      exact ih a (fun y hy => hpre y (by simp [hy])) ha
  · intro pre
    induction pre with
    | nil =>
      intro a _ ha
      simp [DbClient.update_aggregate, ha]
    | cons x rest ih =>
      intro a hpre ha
      have hx := hpre x (by simp)
      rw [List.cons_append]
      unfold DbClient.update_aggregate
      rw [hx]
      exact ih a (fun y hy => hpre y (by simp [hy])) ha

/-- C2 (witness): a concrete generation conflict followed by a successful
write makes both `DbClient` loops finish with `Ok`. -/
theorem dbclient_updates_retry_generation_conflicts_witness :
    DbClient.update_user_profile exampleDecEmpty exampleEnc
        ([genConflictAttempt] ++ [successAttempt]) exampleTag = some (.ok ())
    ∧ DbClient.update_aggregate ([genConflictAttempt] ++ [successAttempt]) 1 100
      = some (.ok ()) :=
  ⟨(dbclient_updates_retry_generation_conflicts exampleDecEmpty exampleEnc exampleTag
      1 100).2.2.2.2.1 [genConflictAttempt] successAttempt (by decide) (by decide),
   (dbclient_updates_retry_generation_conflicts exampleDecEmpty exampleEnc exampleTag
      1 100).2.2.2.2.2 [genConflictAttempt] successAttempt (by decide) (by decide)⟩

/-- C2 (counterexample): `SimpleDbClient::update_user_profile` and
`SimpleDbClient::update_aggregate` surface a `GenerationError` write to the
caller instead of retrying. -/
theorem simple_updates_surface_generation_error :
    SimpleDbClient.update_user_profile exampleDecEmpty exampleEnc genConflictAttempt exampleTag
      = .error (.putFailed .generationError)
    ∧ SimpleDbClient.update_aggregate genConflictAttempt 1 100
      = .error (.putFailed .generationError) :=
  ⟨rfl, rfl⟩

/-! ## C10 - missing core parameters make `from_pairs` reject the query -/

/-- With no `aggregates` pair anywhere in the input, the fold ends with an
empty aggregates list and `from_pairs_go` returns `none`. -/
theorem from_pairs_go_no_aggregates :
    ∀ (pairs : List (String × String)) (tr : Option BucketsRange) (ac : Option Action)
      (o b c : Option String),
      (∀ p ∈ pairs, ¬ p.1 = "aggregates") →
      AggregatesQuery.from_pairs_go pairs tr ac o b c [] = none := by
  intro pairs
  induction pairs with
  | nil =>
    intro tr ac o b c _
    rfl
  | cons hd tl ih =>
    intro tr ac o b c h
    obtain ⟨k, v⟩ := hd
    have hk : ¬ k = "aggregates" := h (k, v) (by simp)
    have htl : ∀ p ∈ tl, ¬ p.1 = "aggregates" := fun p hp => h p (by simp [hp])
    unfold AggregatesQuery.from_pairs_go
    split_ifs with h1 h2 h3 h4 h5 h6
    · cases hpv : parseBucketsRange v with
      | some tr' => exact ih (some tr') ac o b c htl
      | none => rfl
    · cases hpv : parseActionStr v with
      | some ac' => exact ih tr (some ac') o b c htl
      | none => rfl
    · exact ih tr ac (some v) b c htl
    · exact ih tr ac o (some v) c htl
    · exact ih tr ac o b (some v) htl
    · rw [Bool.and_eq_true, decide_eq_true_eq] at h6
      exact absurd h6.1 hk
    · rfl

/-- With no `time_range` pair anywhere in the input, the `time_range`
accumulator stays `none` and `from_pairs_go` returns `none`. -/
theorem from_pairs_go_no_time_range :
    ∀ (pairs : List (String × String)) (ac : Option Action)
      (o b c : Option String) (ags : List Aggregate),
      (∀ p ∈ pairs, ¬ p.1 = "time_range") →
      AggregatesQuery.from_pairs_go pairs none ac o b c ags = none := by
  intro pairs
  induction pairs with
  | nil =>
    intro ac o b c ags _
    cases ags with
    | nil => rfl
    | cons a as => cases ac <;> rfl
  | cons hd tl ih =>
    intro ac o b c ags h
    obtain ⟨k, v⟩ := hd
    have hk : ¬ k = "time_range" := h (k, v) (by simp)
    have htl : ∀ p ∈ tl, ¬ p.1 = "time_range" := fun p hp => h p (by simp [hp])
    unfold AggregatesQuery.from_pairs_go
    split_ifs with h1 h2 h3 h4 h5 h6
    · rw [Bool.and_eq_true, decide_eq_true_eq] at h1
      exact absurd h1.1 hk
    · cases hpv : parseActionStr v with
      | some ac' => exact ih (some ac') o b c ags htl
      | none => rfl
    · exact ih ac (some v) b c ags htl
    · exact ih ac o (some v) c ags htl
    · exact ih ac o b (some v) ags htl
    · cases hpv : parseAggregateStr v with
      | some aggregate =>
        by_cases hmem : ags.contains aggregate = true
        · simp only [hmem, if_pos]
        · simp only [hmem]
          rw [if_neg (by simp [hmem])]
          exact ih ac o b c (ags ++ [aggregate]) htl
      | none => rfl
    · rfl

/-- With no `action` pair anywhere in the input, the `action` accumulator
stays `none` and `from_pairs_go` returns `none`. -/
theorem from_pairs_go_no_action :
    ∀ (pairs : List (String × String)) (tr : Option BucketsRange)
      (o b c : Option String) (ags : List Aggregate),
      (∀ p ∈ pairs, ¬ p.1 = "action") →
      AggregatesQuery.from_pairs_go pairs tr none o b c ags = none := by
  intro pairs
  induction pairs with
  | nil =>
    intro tr o b c ags _
    cases ags with
    | nil => rfl
    | cons a as => cases tr <;> rfl
  | cons hd tl ih =>
    intro tr o b c ags h
    obtain ⟨k, v⟩ := hd
    have hk : ¬ k = "action" := h (k, v) (by simp)
    have htl : ∀ p ∈ tl, ¬ p.1 = "action" := fun p hp => h p (by simp [hp])
    unfold AggregatesQuery.from_pairs_go
    split_ifs with h1 h2 h3 h4 h5 h6
    · cases hpv : parseBucketsRange v with
      | some tr' => exact ih (some tr') o b c ags htl
      | none => rfl
    · rw [Bool.and_eq_true, decide_eq_true_eq] at h2
      exact absurd h2.1 hk
    · exact ih tr (some v) b c ags htl
    · exact ih tr o (some v) c ags htl
    · exact ih tr o b (some v) ags htl
    · cases hpv : parseAggregateStr v with
      | some aggregate =>
        by_cases hmem : ags.contains aggregate = true
        · simp only [hmem, if_pos]
        · simp only [hmem]
          rw [if_neg (by simp [hmem])]
          exact ih tr o b c (ags ++ [aggregate]) htl
      | none => rfl
    · rfl

/-- C10: `AggregatesQuery::from_pairs` returns `None` whenever the pairs
contain no `aggregates` parameter at all, or no `time_range`, or no
`action` - regardless of which other parameters are present and whether
they are valid. -/
theorem from_pairs_requires_core_params (pairs : List (String × String)) :
    ((∀ p ∈ pairs, ¬ p.1 = "aggregates") → AggregatesQuery.from_pairs pairs = none)
    ∧ ((∀ p ∈ pairs, ¬ p.1 = "time_range") → AggregatesQuery.from_pairs pairs = none)
    ∧ ((∀ p ∈ pairs, ¬ p.1 = "action") → AggregatesQuery.from_pairs pairs = none) :=
  ⟨fun h => from_pairs_go_no_aggregates pairs none none none none none h,
   fun h => from_pairs_go_no_time_range pairs none none none none [] h,
   fun h => from_pairs_go_no_action pairs none none none none [] h⟩

/-- C10 (witness): three concrete queries whose other parameters are all
individually valid still parse to `None` when `aggregates`, `time_range` or
`action` is missing. -/
theorem from_pairs_requires_core_params_witness :
    AggregatesQuery.from_pairs
        [("time_range", "2022-03-22T12:15:00_2022-03-22T12:16:00"), ("action", "BUY")] = none
    ∧ AggregatesQuery.from_pairs [("action", "BUY"), ("aggregates", "COUNT")] = none
    ∧ AggregatesQuery.from_pairs
        [("time_range", "2022-03-22T12:15:00_2022-03-22T12:16:00"),
         ("aggregates", "COUNT")] = none :=
  ⟨(from_pairs_requires_core_params _).1 (by decide),
   (from_pairs_requires_core_params _).2.1 (by decide),
   (from_pairs_requires_core_params _).2.2 (by decide)⟩

/-! ## C5 - the aggregates reply: one row per minute, in order -/

/-- Collecting a mapped list whose elements all parse succeeds with the
mapped values. -/
theorem collectResults_map_ok {α β : Type} (p : α → Except String β) (f : α → β)
    (l : List α) (h : ∀ x ∈ l, p x = .ok (f x)) :
    collectResults (l.map p) = .ok (l.map f) := by
  induction l with
  | nil => rfl
  | cons hd tl ih =>
    have hh := h hd (by simp)
    have ht := ih (fun x hx => h x (by simp [hx]))
    simp only [List.map_cons, collectResults, hh, ht]

/-- Parsing the response entry of a well-formed store yields the embedded
minute and the stored row (zero row when the record is absent). -/
theorem parse_batch_read_store (store : AggregatesBucket → Option DbRecord)
    (hwf : ∀ b r, store b = some r → aggStateWF (some r) = true) (b : AggregatesBucket) :
    parse_batch_read ⟨b, store b⟩ = .ok (b.timestamp, rowOfStore store b) := by
  cases hs : store b with
  | none => simp [parse_batch_read, rowOfStore, hs]
  | some record =>
    obtain ⟨⟨i, hc⟩, ⟨j, hsp⟩⟩ := aggStateWF_some (hwf b record hs)
    simp [parse_batch_read, rowOfStore, hs, parse_aggregate, hc, hsp, aggValue]

/-- Shifting an instant by whole minutes shifts its minute number. -/
theorem minuteOf_shift (a : Int) (i : Nat) :
    minuteOf (a + 60000 * (i : Int)) = minuteOf a + (i : Int) := by
  unfold minuteOf
  omega

/-- Bucket starts are strictly increasing. -/
theorem bucket_starts_pairwise_lt (r : BucketsRange) :
    List.Pairwise (fun x y : Int => x < y) r.bucket_starts := by
  unfold BucketsRange.bucket_starts
  refine List.pairwise_map.mpr ?_
  refine (List.pairwise_lt_range r.buckets_count).imp ?_
  intro a b hab
  have hab' : (a : Int) < (b : Int) := by exact_mod_cast hab
  omega

/-- The minute-and-row pairs the query's buckets parse to have strictly
increasing minutes. -/
theorem parsed_starts_pairwise_lt (query : AggregatesQuery)
    (store : AggregatesBucket → Option DbRecord) :
    List.Pairwise (fun x y : Int × AggregatesRow => x.1 < y.1)
      (query.time_range.bucket_starts.map
        (fun t => ((DbClient.queryBucket query t).timestamp,
          rowOfStore store (DbClient.queryBucket query t)))) := by
  unfold BucketsRange.bucket_starts
  rw [List.map_map]
  refine List.pairwise_map.mpr ?_
  refine (List.pairwise_lt_range query.time_range.buckets_count).imp ?_
  intro a b hab
  simp only [Function.comp_apply]
  show (DbClient.queryBucket query (query.time_range.fromTime + 60000 * (a : Int))).timestamp
    < (DbClient.queryBucket query (query.time_range.fromTime + 60000 * (b : Int))).timestamp
  unfold DbClient.queryBucket AggregatesBucket.new
  rw [minuteOf_shift, minuteOf_shift]
  show minuteOf query.time_range.fromTime + (a : Int)
    < minuteOf query.time_range.fromTime + (b : Int)
  have hab' : (a : Int) < (b : Int) := by exact_mod_cast hab
  omega

/-- C5: for a valid buckets range, `DbClient::get_aggregates` answers with
exactly one row per minute of `[from, to)` - the stored row of that minute's
key, a zero row when the record is absent - whatever order the batch read
returned the records in; the reply has `(to - from) / 1 minute` rows and the
bucket starts they are zipped with are strictly increasing. -/
theorem get_aggregates_bucket_rows (query : AggregatesQuery)
    (store : AggregatesBucket → Option DbRecord) (resp : List BatchRead)
    (hwf : ∀ b r, store b = some r → aggStateWF (some r) = true)
    (hperm : resp.Perm (canonicalResponse query store)) :
    DbClient.get_aggregates query resp
      = .ok ⟨query, query.time_range.bucket_starts.map
          (fun t => rowOfStore store (DbClient.queryBucket query t))⟩
    ∧ (query.time_range.bucket_starts.map
          (fun t => rowOfStore store (DbClient.queryBucket query t))).length
        = query.time_range.buckets_count
    ∧ List.Pairwise (fun x y : Int => x < y) query.time_range.bucket_starts := by
  have hlen0 : query.time_range.bucket_starts.length = query.time_range.buckets_count := by
    simp [BucketsRange.bucket_starts]
  have hmem : ∀ br ∈ resp, parse_batch_read br = .ok (parsedEntry store br) := by
    intro br hbr
    have hin : br ∈ canonicalResponse query store := hperm.mem_iff.mp hbr
    obtain ⟨b, hb, rfl⟩ := List.mem_map.mp hin
    exact parse_batch_read_store store hwf b
  have hcollect : collectResults (resp.map parse_batch_read)
      = .ok (resp.map (parsedEntry store)) :=
    collectResults_map_ok parse_batch_read (parsedEntry store) resp hmem
  have hcanon : (canonicalResponse query store).map (parsedEntry store)
      = query.time_range.bucket_starts.map
        (fun t => ((DbClient.queryBucket query t).timestamp,
          rowOfStore store (DbClient.queryBucket query t))) := by
    unfold canonicalResponse DbClient.batch_requests
    rw [List.map_map, List.map_map]
    rfl
  have hpmap : (resp.map (parsedEntry store)).Perm
      (query.time_range.bucket_starts.map
        (fun t => ((DbClient.queryBucket query t).timestamp,
          rowOfStore store (DbClient.queryBucket query t)))) := by
    rw [← hcanon]
    exact hperm.map (parsedEntry store)
  have hLfst := parsed_starts_pairwise_lt query store
  have htrans : ∀ (a b c : Int × AggregatesRow),
      (fun x y : Int × AggregatesRow => decide (x.1 ≤ y.1)) a b = true →
      (fun x y : Int × AggregatesRow => decide (x.1 ≤ y.1)) b c = true →
      (fun x y : Int × AggregatesRow => decide (x.1 ≤ y.1)) a c = true := by
    intro a b c hab hbc
    simp only [decide_eq_true_eq] at *
    omega
  have htotal : ∀ (a b : Int × AggregatesRow),
      ((fun x y : Int × AggregatesRow => decide (x.1 ≤ y.1)) a b
        || (fun x y : Int × AggregatesRow => decide (x.1 ≤ y.1)) b a) = true := by
    intro a b
    simp only [Bool.or_eq_true, decide_eq_true_eq]
    omega
  have hsortedle := List.sorted_mergeSort htrans htotal (resp.map (parsedEntry store))
  have hpermL : ((resp.map (parsedEntry store)).mergeSort
      (fun x y : Int × AggregatesRow => decide (x.1 ≤ y.1))).Perm
      (query.time_range.bucket_starts.map
        (fun t => ((DbClient.queryBucket query t).timestamp,
          rowOfStore store (DbClient.queryBucket query t)))) :=
    (List.mergeSort_perm _ _).trans hpmap
  have hndL : ((query.time_range.bucket_starts.map
      (fun t => ((DbClient.queryBucket query t).timestamp,
        rowOfStore store (DbClient.queryBucket query t)))).map Prod.fst).Nodup := by
    refine List.pairwise_map.mpr ?_
    exact hLfst.imp (fun h => ne_of_lt h)
  have hndSorted : (((resp.map (parsedEntry store)).mergeSort
      (fun x y : Int × AggregatesRow => decide (x.1 ≤ y.1))).map Prod.fst).Nodup :=
    (hpermL.map Prod.fst).nodup_iff.mpr hndL
  have hsortedlt : List.Pairwise (fun x y : Int × AggregatesRow => x.1 < y.1)
      ((resp.map (parsedEntry store)).mergeSort
        (fun x y : Int × AggregatesRow => decide (x.1 ≤ y.1))) := by
    have h1 : List.Pairwise (fun x y : Int × AggregatesRow => x.1 ≤ y.1)
        ((resp.map (parsedEntry store)).mergeSort
          (fun x y : Int × AggregatesRow => decide (x.1 ≤ y.1))) :=
      hsortedle.imp (fun h => by simpa using h)
    have h2 : List.Pairwise (fun x y : Int × AggregatesRow => ¬ x.1 = y.1)
        ((resp.map (parsedEntry store)).mergeSort
          (fun x y : Int × AggregatesRow => decide (x.1 ≤ y.1))) :=
      List.pairwise_map.mp hndSorted
    exact (h1.and h2).imp (fun hc => lt_of_le_of_ne hc.1 hc.2)
  haveI : IsAntisymm (Int × AggregatesRow) (fun x y : Int × AggregatesRow => x.1 < y.1) :=
    ⟨fun a b h1 h2 => absurd h2 (not_lt.mpr (le_of_lt h1))⟩
  have heq : (resp.map (parsedEntry store)).mergeSort
      (fun x y : Int × AggregatesRow => decide (x.1 ≤ y.1))
      = query.time_range.bucket_starts.map
        (fun t => ((DbClient.queryBucket query t).timestamp,
          rowOfStore store (DbClient.queryBucket query t))) :=
    List.eq_of_perm_of_sorted hpermL hsortedlt hLfst
  refine ⟨?_, by simp [hlen0], bucket_starts_pairwise_lt query.time_range⟩
  unfold DbClient.get_aggregates
  rw [hcollect]
  show query.make_reply (((resp.map (parsedEntry store)).mergeSort
      (fun x y : Int × AggregatesRow => decide (x.1 ≤ y.1))).map (fun p => p.2)) = _
  rw [heq, List.map_map]
  unfold AggregatesQuery.make_reply
  rw [if_pos (by simp [hlen0])]
  rfl

/-- C5 (witness): a two-minute range answered by the store in reversed
order still yields the two rows in bucket order. -/
theorem get_aggregates_bucket_rows_witness :
    DbClient.get_aggregates exampleQuery5 exampleResp5
      = .ok ⟨exampleQuery5, exampleQuery5.time_range.bucket_starts.map
          (fun t => rowOfStore exampleStore5 (DbClient.queryBucket exampleQuery5 t))⟩ :=
  (get_aggregates_bucket_rows exampleQuery5 exampleStore5 exampleResp5
    (fun b r h => by simp [exampleStore5] at h)
    (by decide)).1

end Allezon
